import Mathlib

/-!
# Verification of the snapshot-creation orchestrator (`create_snapy.py` / `common.py`)

This file gives a shallow embedding, in Lean 4, of the concurrent
multi-subscription snapshot orchestration pipeline of the repository:

* `common.py`: `run_az_command`, `extract_vm_info`, the `TIMESTAMP` constant;
* `create_snapy.py`: `write_snapshot_rid`, `process_vm`,
  `group_vms_by_subscription`, `main`.

External commands (the Azure CLI) are modelled by an oracle that returns, for
each command, the structured data the scripts actually consume (return code,
stderr, and the JSON fields `resourceGroup`, `diskId`, `id`); this encodes the
hypothesis that every external command returns a well-formed response.  File
and console logging and the `rich` progress display are presentation-only and
are not modelled.  Since `create_snapy.py` drives everything from a single
coroutine with plain `await` at each call (it never uses `create_task` /
`gather`), its execution is deterministic and is modelled as a pure function
from the oracle and the inputs to a final state together with a full event
trace; the trace records command issuance/completion, semaphore acquisition
and release, durable-file appends, and outcome recording, so that temporal
claims can be stated as properties of the trace.
-/

namespace SnapScripts

/-! ## Python string primitives (modelled on `List Char` so they compute) -/

/-- Auxiliary splitter: Python `str.split(sep)` for a one-character separator,
accumulating the current field in reverse.  `"a//b".split("/") = ["a","","b"]`,
`"".split("/") = [""]`. -/
def splitOnCharAux (c : Char) : List Char → List Char → List (List Char)
  | [], acc => [acc.reverse]
  | x :: xs, acc =>
      if x = c then acc.reverse :: splitOnCharAux c xs []
      else splitOnCharAux c xs (x :: acc)

/-- Python `s.split(sep)` for a single-character separator `c`. -/
def pySplitChar (s : String) (c : Char) : List String :=
  (splitOnCharAux c s.data []).map String.mk

/-- Python `s.rsplit(None, 1)` restricted to strings holding at least two
whitespace-separated tokens: trailing whitespace is discarded, the last token
becomes the second component, and everything before the separating whitespace
run (kept verbatim) becomes the first.  `create_snapy.py` line 79 destructures
the result into `(resource_id, vm_name)`. -/
def rsplit1 (s : String) : String × String :=
  let cs := s.data.reverse.dropWhile Char.isWhitespace
  let name := cs.takeWhile (fun c => !c.isWhitespace)
  let rest := (cs.dropWhile (fun c => !c.isWhitespace)).dropWhile Char.isWhitespace
  (String.mk rest.reverse, String.mk name.reverse)

/-- Python `str.splitlines` for `\n`-separated text: like `split("\n")` but an
empty string yields `[]` and one trailing newline produces no trailing empty
field (`"a\n".splitlines() = ["a"]`, `"\n".splitlines() = [""]`). -/
def splitlines (s : String) : List String :=
  match s.data with
  | [] => []
  | cs =>
      let parts := (splitOnCharAux '\n' cs []).map String.mk
      if cs.getLast? = some '\n' then parts.dropLast else parts

/-- Python `str.strip()`: remove leading and trailing whitespace. -/
def pyStrip (s : String) : String :=
  let cs := s.data.dropWhile Char.isWhitespace
  String.mk (cs.reverse.dropWhile Char.isWhitespace).reverse

/-! ## `common.run_az_command` -/

/-- What the operating system does with one attempt to launch a shell command:
either a process runs to completion with captured output and an exit status,
or launching fails and `asyncio.create_subprocess_shell` raises. -/
inductive LaunchOutcome where
  | launched (stdout stderr : String) (returncode : Int)
  | failedToLaunch (exMsg : String)
deriving DecidableEq, Repr

/-- Result of a Python call that can either return a value or propagate an
exception to its caller. -/
inductive PyResult (α : Type) where
  | ret (a : α)
  | raised (msg : String)
deriving DecidableEq, Repr

/-- `common.py` lines 22-38.  On exit status 0 it returns the stripped stdout
and stderr with the status; on a non-zero status it returns `None` in place of
stdout together with the stripped stderr and the status; any exception during
launch or communication is caught and turned into the return value
`(None, str(e), 1)`.  No path re-raises. -/
def run_az_command (o : LaunchOutcome) : PyResult (Option String × String × Int) :=
  match o with
  | .launched out err rc =>
      if rc = 0 then .ret (some (pyStrip out), pyStrip err, rc)
      else .ret (none, pyStrip err, rc)
  | .failedToLaunch msg => .ret (none, msg, 1)

/-! ## `common.extract_vm_info` -/

/-- `common.py` lines 62-76, with the file system abstracted as a partial map
from file names to contents.  The `host_file` argument is received but never
used: the function always reads the fixed file `snapshot_vmlist.txt`, returns
`None` when it is missing or when its contents split into no lines, and
otherwise returns the list of lines. -/
def extract_vm_info (fs : String → Option String) (host_file : String) :
    Option (List String) :=
  let _ := host_file
  match fs "snapshot_vmlist.txt" with
  | none => none
  | some content =>
      let vm_list := splitlines content
      if vm_list = [] then none else some vm_list

/-! ## The run-start timestamp (`common.TIMESTAMP`) -/

/-- A wall-clock instant, as consumed by `strftime("%Y%m%d%H%M%S")`. -/
structure DateTime where
  year : Nat
  month : Nat
  day : Nat
  hour : Nat
  minute : Nat
  second : Nat
deriving DecidableEq, Repr

/-- Zero-pad a numeral to two digits, as `%m %d %H %M %S` do. -/
def pad2 (n : Nat) : String :=
  if n < 10 then "0" ++ toString n else toString n

/-- Zero-pad a numeral to four digits, as `%Y` does. -/
def pad4 (n : Nat) : String :=
  if n < 10 then "000" ++ toString n
  else if n < 100 then "00" ++ toString n
  else if n < 1000 then "0" ++ toString n
  else toString n

/-- Python `t.strftime("%Y%m%d%H%M%S")`. -/
def strftime_YmdHMS (t : DateTime) : String :=
  pad4 t.year ++ pad2 t.month ++ pad2 t.day ++
    pad2 t.hour ++ pad2 t.minute ++ pad2 t.second

/-- `common.py` line 13: `TIMESTAMP` is computed once, when the process (and
hence the run) starts, from the run-start instant; every later use of
`TIMESTAMP` in the run sees this single value. -/
def TIMESTAMP (runStart : DateTime) : String :=
  strftime_YmdHMS runStart

/-! ## The external-command oracle

`create_snapy.py` issues three kinds of Azure CLI commands.  The oracle gives,
for each command, exactly the structured data the script consumes: the return
code, and on the success paths the JSON fields read from stdout
(`resourceGroup` and `diskId` for `az vm show`; the optional `id` for
`az snapshot create`, matching `snapshot_data.get("id")`).  Modelling the
responses as already-parsed structures encodes the claims' hypothesis that
every external command returns a well-formed response. -/

/-- Parsed response of `az vm show --ids <rid> --query {resourceGroup, diskId}`. -/
structure VmShowResult where
  returncode : Int
  stderr : String
  resourceGroup : String
  diskId : String
deriving DecidableEq, Repr

/-- Parsed response of `az snapshot create`; `id` is `json.loads(stdout).get("id")`. -/
structure SnapshotCreateResult where
  returncode : Int
  stderr : String
  id : Option String
deriving DecidableEq, Repr

/-- The external command layer, as a deterministic response table: `accountSet`
answers `az account set --subscription <sid>` with a return code, `vmShow`
answers the per-VM detail lookup, and `snapshotCreate` answers the creation
command for a given snapshot name, resource group, and source disk. -/
structure Oracle where
  accountSet : String → Int
  vmShow : String → VmShowResult
  snapshotCreate : String → String → String → SnapshotCreateResult

/-! ## Events and run state -/

/-- One observable step of a run, in program order.  `create_snapy.py` is a
single coroutine that awaits every call, so the trace of a run is a single
sequence. -/
inductive Event where
  | cmdAccountSet (subscription : String) (rc : Int)
  | cmdVmShow (resource_id : String) (rc : Int)
  | semAcquire (vm_name : String)
  | createIssue (resource_id vm_name snapshot_name : String)
  | createComplete (vm_name : String) (rc : Int)
  | appendRid (snapshot_id : String)
  | recordSuccess (vm_name snapshot_name : String)
  | recordFailure (vm_name reason : String)
  | semRelease (vm_name : String)
deriving DecidableEq, Repr

/-- The mutable module state of `create_snapy.py` during a run: the two
outcome accumulators (lines 27-28), the durable `snap_rid_list.txt` file
(line 17 of `common.py`, appended by `write_snapshot_rid`), and the event
trace. -/
structure RunState where
  successful_snapshots : List (String × String)
  failed_snapshots : List (String × String)
  snap_rid_list : List String
  events : List Event
deriving DecidableEq, Repr

/-- The state at the start of a run: empty accumulators, empty durable file,
empty trace. -/
def initState : RunState :=
  ⟨[], [], [], []⟩

/-- Append one event to the trace. -/
def emit (s : RunState) (e : Event) : RunState :=
  { s with events := s.events ++ [e] }

/-- `create_snapy.py` lines 31-33: `write_snapshot_rid` opens the durable list
file in append mode and writes one line; it never truncates or rewrites. -/
def write_snapshot_rid (s : RunState) (snapshot_id : String) : RunState :=
  { s with snap_rid_list := s.snap_rid_list ++ [snapshot_id],
           events := s.events ++ [Event.appendRid snapshot_id] }

/-- `successful_snapshots.append((vm_name, snapshot_name))`. -/
def recordSuccess (s : RunState) (vm_name snapshot_name : String) : RunState :=
  { s with successful_snapshots := s.successful_snapshots ++ [(vm_name, snapshot_name)],
           events := s.events ++ [Event.recordSuccess vm_name snapshot_name] }

/-- `failed_snapshots.append((vm_name, reason))`. -/
def recordFailure (s : RunState) (vm_name reason : String) : RunState :=
  { s with failed_snapshots := s.failed_snapshots ++ [(vm_name, reason)],
           events := s.events ++ [Event.recordFailure vm_name reason] }

/-- The snapshot name built at `create_snapy.py` line 42:
`f"RH_{chg_number}_{vm_name}_{TIMESTAMP}"`. -/
def snapshotNameOf (chg_number vm_name ts : String) : String :=
  "RH_" ++ chg_number ++ "_" ++ vm_name ++ "_" ++ ts

/-- `create_snapy.py` lines 36-73 (`process_vm`), with logging and progress
display omitted.  The body runs under `async with semaphore` — the semaphore
is acquired before anything else and released on every exit path.  The create
command is issued, then: non-zero return code records a failure with reason
`"Failed to create snapshot"`; a zero return code with an `id` field appends
the id to the durable file and then records a success; a zero return code
without an `id` field records a failure with reason
`"Failed to extract snapshot ID"`. -/
def process_vm (o : Oracle) (chg_number ts : String)
    (resource_id vm_name resource_group disk_id : String) (s : RunState) :
    RunState :=
  let s := emit s (Event.semAcquire vm_name)
  let snapshot_name := snapshotNameOf chg_number vm_name ts
  let r := o.snapshotCreate snapshot_name resource_group disk_id
  let s := emit s (Event.createIssue resource_id vm_name snapshot_name)
  let s := emit s (Event.createComplete vm_name r.returncode)
  let s :=
    if r.returncode ≠ 0 then
      recordFailure s vm_name "Failed to create snapshot"
    else
      match r.id with
      | some snapshot_id =>
          recordSuccess (write_snapshot_rid s snapshot_id) vm_name snapshot_name
      | none =>
          recordFailure s vm_name "Failed to extract snapshot ID"
  emit s (Event.semRelease vm_name)

/-! ## Grouping (`group_vms_by_subscription`) -/

/-- Parse one input line as `create_snapy.py` line 79 does:
`resource_id, vm_name = line.rsplit(None, 1)`. -/
def parseLine (line : String) : String × String :=
  rsplit1 line

/-- The subscription key of a resource id, `create_snapy.py` line 80:
`resource_id.split("/")[2]` (total here via a default for too-short ids;
well-formed ids have at least three segments). -/
def subscriptionOf (resource_id : String) : String :=
  (pySplitChar resource_id '/').getD 2 ""

/-- Insert a record under a key in an insertion-ordered association list,
matching `defaultdict(list)` + `append`: an existing key keeps its position
and gets the record appended to its list; a new key is added at the end. -/
def addToGroup (g : List (String × List (String × String)))
    (k : String) (v : String × String) : List (String × List (String × String)) :=
  match g with
  | [] => [(k, [v])]
  | (k', vs) :: rest =>
      if k' = k then (k, vs ++ [v]) :: rest
      else (k', vs) :: addToGroup rest k v

/-- `create_snapy.py` lines 76-82: split each line into resource id and VM
name, key it by the third slash-segment of the resource id, and collect the
records per key in a `defaultdict(list)` (insertion-ordered). -/
def group_vms_by_subscription (vm_list : List String) :
    List (String × List (String × String)) :=
  vm_list.foldl
    (fun g line =>
      let p := parseLine line
      addToGroup g (subscriptionOf p.1) p) []

/-! ## The orchestration loop (`main`, lines 141-188) -/

/-- The per-VM body of the inner loop of `main` (lines 157-183): issue the
detail lookup `az vm show`; on a non-zero return code record the failure
`"Failed to get VM details"` and continue; otherwise read `resourceGroup` and
`diskId` from the response and await `process_vm`. -/
def processGroupVM (o : Oracle) (chg_number ts : String) (s : RunState)
    (rec : String × String) : RunState :=
  let resource_id := rec.1
  let vm_name := rec.2
  let r := o.vmShow resource_id
  let s := emit s (Event.cmdVmShow resource_id r.returncode)
  if r.returncode ≠ 0 then
    recordFailure s vm_name "Failed to get VM details"
  else
    process_vm o chg_number ts resource_id vm_name r.resourceGroup r.diskId s

/-- The per-group body of the outer loop of `main` (lines 141-183): switch the
subscription context with `az account set`; if the switch fails, record every
VM of the group as failed with reason `"Failed to set subscription"` and
continue with the next group; otherwise process the group's VMs one after the
other. -/
def processGroup (o : Oracle) (chg_number ts : String) (s : RunState)
    (g : String × List (String × String)) : RunState :=
  let subscription_id := g.1
  let vms := g.2
  let rc := o.accountSet subscription_id
  let s := emit s (Event.cmdAccountSet subscription_id rc)
  if rc ≠ 0 then
    vms.foldl (fun s rec => recordFailure s rec.2 "Failed to set subscription") s
  else
    vms.foldl (processGroupVM o chg_number ts) s

/-- The orchestration phase of `main` (`create_snapy.py` lines 114-188): group
the input lines by subscription and run the sequential group loop.  `ts` is
the module-level `TIMESTAMP`, fixed for the whole run. -/
def mainRun (o : Oracle) (chg_number ts : String) (vm_list : List String) :
    RunState :=
  (group_vms_by_subscription vm_list).foldl (processGroup o chg_number ts) initState

/-- `main` end to end (`create_snapy.py` lines 85-112 plus the loop): read the
VM list via `extract_vm_info` — returning early (`none`) when it yields `None`
or an empty list — and otherwise run the orchestration. -/
def mainEntry (fs : String → Option String) (o : Oracle)
    (host_file chg_number ts : String) : Option RunState :=
  match extract_vm_info fs host_file with
  | none => none
  | some vm_list =>
      if vm_list.length = 0 then none
      else some (mainRun o chg_number ts vm_list)

/-! ## Trace blocks

The run is a single sequential coroutine, so its trace decomposes into the
concatenation of per-group blocks, each of which concatenates per-VM blocks.
The block functions below recompute, from the oracle alone, exactly the events
each step of the loop emits; the characterization lemmas identify the run
state with the events of the trace. -/

/-- The `(vm_name, snapshot_name)` payload of a success-recording event. -/
def getSuccessEvent : Event → Option (String × String)
  | Event.recordSuccess vm n => some (vm, n)
  | _ => none

/-- The `(vm_name, reason)` payload of a failure-recording event. -/
def getFailureEvent : Event → Option (String × String)
  | Event.recordFailure vm r => some (vm, r)
  | _ => none

/-- The snapshot id of a durable-file append event. -/
def getAppendEvent : Event → Option String
  | Event.appendRid sid => some sid
  | _ => none

/-- The subscription id of a context-switch command event. -/
def getAccountSetEvent : Event → Option String
  | Event.cmdAccountSet sub _ => some sub
  | _ => none

/-- Extend a run state by a block of events, replaying the recorded successes,
failures, and durable appends into the state fields. -/
def appendBlock (s : RunState) (b : List Event) : RunState :=
  { successful_snapshots := s.successful_snapshots ++ b.filterMap getSuccessEvent
    failed_snapshots := s.failed_snapshots ++ b.filterMap getFailureEvent
    snap_rid_list := s.snap_rid_list ++ b.filterMap getAppendEvent
    events := s.events ++ b }

/-- The events emitted by one `process_vm` call. -/
def vmBlock (o : Oracle) (chg_number ts rid vm rg dk : String) : List Event :=
  let snapshot_name := snapshotNameOf chg_number vm ts
  let r := o.snapshotCreate snapshot_name rg dk
  [Event.semAcquire vm, Event.createIssue rid vm snapshot_name,
    Event.createComplete vm r.returncode] ++
  (if r.returncode ≠ 0 then [Event.recordFailure vm "Failed to create snapshot"]
   else
     match r.id with
     | some sid => [Event.appendRid sid, Event.recordSuccess vm snapshot_name]
     | none => [Event.recordFailure vm "Failed to extract snapshot ID"]) ++
  [Event.semRelease vm]

/-- The events emitted by one iteration of the per-VM loop. -/
def vmStepBlock (o : Oracle) (chg_number ts : String) (rec : String × String) :
    List Event :=
  let r := o.vmShow rec.1
  Event.cmdVmShow rec.1 r.returncode ::
  (if r.returncode ≠ 0 then [Event.recordFailure rec.2 "Failed to get VM details"]
   else vmBlock o chg_number ts rec.1 rec.2 r.resourceGroup r.diskId)

/-- The events emitted by one iteration of the per-group loop. -/
def groupBlock (o : Oracle) (chg_number ts : String)
    (g : String × List (String × String)) : List Event :=
  Event.cmdAccountSet g.1 (o.accountSet g.1) ::
  (if o.accountSet g.1 ≠ 0 then
     g.2.map (fun rec => Event.recordFailure rec.2 "Failed to set subscription")
   else g.2.flatMap (vmStepBlock o chg_number ts))

/-- Look a key up in an insertion-ordered association list of groups
(`grouped_vms[subscription_id]`), defaulting to the empty list as
`defaultdict(list)` does for reading. -/
def groupLookup (g : List (String × List (String × String))) (k : String) :
    List (String × String) :=
  match g with
  | [] => []
  | (k', vs) :: rest => if k' = k then vs else groupLookup rest k

/-- The subscription keys seen so far, in first-seen order and without
repetition (`dict` insertion order). -/
def firstSeen (l : List String) : List String :=
  l.foldl (fun acc k => if k ∈ acc then acc else acc ++ [k]) []

/-- Run a state machine over a trace; `none` once any step is refused. -/
def scanEvents {σ : Type} (step : σ → Event → Option σ) : σ → List Event → Option σ
  | st, [] => some st
  | st, e :: rest =>
      match step st e with
      | none => none
      | some st' => scanEvents step st' rest

/-- Semaphore discipline: the state says whether a task currently holds the
(only ever contended-by-one) semaphore.  Acquiring twice, releasing without
holding, or issuing a create command without holding refuses. -/
def semStep : Bool → Event → Option Bool
  | held, Event.semAcquire _ => if held then none else some true
  | held, Event.semRelease _ => if held then some false else none
  | held, Event.createIssue _ _ _ => if held then some true else none
  | held, _ => some held

/-- Create-commands in flight: a new create may only be issued when none is in
flight, and a completion requires one in flight. -/
def createStep : Nat → Event → Option Nat
  | n, Event.createIssue _ _ _ => if n = 0 then some (n + 1) else none
  | n, Event.createComplete _ _ =>
      match n with
      | 0 => none
      | m + 1 => some m
  | n, _ => some n

/-- Durable-append discipline: each `appendRid` must be immediately followed
by the `recordSuccess` it belongs to, and each `recordSuccess` must be
immediately preceded by its `appendRid`. -/
def pairStep : Option String → Event → Option (Option String)
  | none, Event.appendRid sid => some (some sid)
  | some _, Event.appendRid _ => none
  | some _, Event.recordSuccess _ _ => some none
  | none, Event.recordSuccess _ _ => none
  | some _, _ => none
  | none, _ => some none

/-- Does the event issue a snapshot-creation command? -/
def isCreateIssue : Event → Bool
  | Event.createIssue _ _ _ => true
  | _ => false

/-- Does the event complete a snapshot-creation command? -/
def isCreateComplete : Event → Bool
  | Event.createComplete _ _ => true
  | _ => false

/-- The VM names that received an outcome in a block of events, successes
first. -/
def blockNames (b : List Event) : List String :=
  (b.filterMap getSuccessEvent).map Prod.fst ++
    (b.filterMap getFailureEvent).map Prod.fst

/-- Is the event a durable-file append? -/
def isAppendRid : Event → Bool
  | Event.appendRid _ => true
  | _ => false

/-- Is the event a success record? -/
def isRecordSuccess : Event → Bool
  | Event.recordSuccess _ _ => true
  | _ => false

/-- Weight of a pending-append state. -/
def pendWeight : Option String → Nat
  | none => 0
  | some _ => 1

/-- A line the Python code can process without raising: at least two
whitespace-separated tokens (so `rsplit(None, 1)` unpacks into two values)
and a resource id with at least three slash-segments (so index 2 exists). -/
def wellFormedLine (line : String) : Bool :=
  decide ((parseLine line).1 ≠ "") && decide ((parseLine line).2 ≠ "") &&
    decide (3 ≤ (pySplitChar (parseLine line).1 '/').length)

/-- An oracle on which every command succeeds. -/
def allOkOracle : Oracle :=
  { accountSet := fun _ => 0
    vmShow := fun rid => ⟨0, "", "rg1", rid ++ "/disks/osdisk"⟩
    snapshotCreate := fun name _ _ => ⟨0, "", some ("/snapshots/" ++ name)⟩ }

/-- An oracle on which the context switch for subscription `S1` fails and
everything else succeeds. -/
def s1FailOracle : Oracle :=
  { accountSet := fun sid => if sid = "S1" then 1 else 0
    vmShow := fun rid => ⟨0, "", "rg1", rid ++ "/disks/osdisk"⟩
    snapshotCreate := fun name _ _ => ⟨0, "", some ("/snapshots/" ++ name)⟩ }

/-- An oracle whose create command exits 0 but returns no `id` field. -/
def noIdOracle : Oracle :=
  { accountSet := fun _ => 0
    vmShow := fun rid => ⟨0, "", "rg1", rid ++ "/disks/osdisk"⟩
    snapshotCreate := fun _ _ _ => ⟨0, "", none⟩ }

/-- An oracle whose create command fails with a non-zero exit status. -/
def createFailOracle : Oracle :=
  { accountSet := fun _ => 0
    vmShow := fun rid => ⟨0, "", "rg1", rid ++ "/disks/osdisk"⟩
    snapshotCreate := fun _ _ _ => ⟨1, "boom", none⟩ }

/-- Three records over two subscriptions, with the two `S1` records separated
by an `S2` record. -/
def sampleInput : List String :=
  ["/subscriptions/S1/x vm1", "/subscriptions/S2/y vm2", "/subscriptions/S1/z vm3"]

/-- Two records in one subscription group. -/
def twoVmInput : List String :=
  ["/subscriptions/S1/x vm1", "/subscriptions/S1/y vm2"]

theorem appendBlock_append (s : RunState) (a b : List Event) :
    appendBlock (appendBlock s a) b = appendBlock s (a ++ b) := by
  simp [appendBlock, List.filterMap_append, List.append_assoc]

theorem appendBlock_nil (s : RunState) : appendBlock s [] = s := by
  simp [appendBlock]

theorem emit_eq_appendBlock (s : RunState) (e : Event)
    (h1 : getSuccessEvent e = none) (h2 : getFailureEvent e = none)
    (h3 : getAppendEvent e = none) :
    emit s e = appendBlock s [e] := by
  simp [emit, appendBlock, List.filterMap, h1, h2, h3]

theorem recordSuccess_eq_appendBlock (s : RunState) (vm n : String) :
    recordSuccess s vm n = appendBlock s [Event.recordSuccess vm n] := by
  simp [recordSuccess, appendBlock, List.filterMap, getSuccessEvent,
    getFailureEvent, getAppendEvent]

theorem recordFailure_eq_appendBlock (s : RunState) (vm r : String) :
    recordFailure s vm r = appendBlock s [Event.recordFailure vm r] := by
  simp [recordFailure, appendBlock, List.filterMap, getSuccessEvent,
    getFailureEvent, getAppendEvent]

theorem write_snapshot_rid_eq_appendBlock (s : RunState) (sid : String) :
    write_snapshot_rid s sid = appendBlock s [Event.appendRid sid] := by
  simp [write_snapshot_rid, appendBlock, List.filterMap, getSuccessEvent,
    getFailureEvent, getAppendEvent]

/-- `process_vm` extends the state by exactly its event block. -/
theorem process_vm_eq (o : Oracle) (chg_number ts rid vm rg dk : String)
    (s : RunState) :
    process_vm o chg_number ts rid vm rg dk s =
      appendBlock s (vmBlock o chg_number ts rid vm rg dk) := by
  unfold process_vm vmBlock
  by_cases h : (o.snapshotCreate (snapshotNameOf chg_number vm ts) rg dk).returncode = 0
  · rcases hid : (o.snapshotCreate (snapshotNameOf chg_number vm ts) rg dk).id with _ | sid
    · simp only [h, hid, if_neg, ite_false, ite_true, not_true_eq_false,
        emit_eq_appendBlock, recordFailure_eq_appendBlock, appendBlock_append,
        emit, recordFailure, appendBlock]
      simp [List.filterMap, getSuccessEvent, getFailureEvent, getAppendEvent]
    · simp only [h, hid, emit, recordSuccess, write_snapshot_rid, appendBlock]
      simp [List.filterMap, getSuccessEvent, getFailureEvent, getAppendEvent]
  · simp only [h, emit, recordFailure, appendBlock]
    simp [h, List.filterMap, getSuccessEvent, getFailureEvent, getAppendEvent]

/-- One iteration of the per-VM loop extends the state by exactly its block. -/
theorem processGroupVM_eq (o : Oracle) (chg_number ts : String) (s : RunState)
    (rec : String × String) :
    processGroupVM o chg_number ts s rec =
      appendBlock s (vmStepBlock o chg_number ts rec) := by
  unfold processGroupVM vmStepBlock
  by_cases h : (o.vmShow rec.1).returncode = 0
  · simp only [h, process_vm_eq, emit, appendBlock, recordFailure]
    simp [vmBlock, List.filterMap, getSuccessEvent, getFailureEvent, getAppendEvent]
  · simp only [h, emit, recordFailure, appendBlock]
    simp [h, List.filterMap, getSuccessEvent, getFailureEvent, getAppendEvent]

/-- One iteration of the per-group loop extends the state by exactly its block. -/
theorem processGroup_eq (o : Oracle) (chg_number ts : String) (s : RunState)
    (g : String × List (String × String)) :
    processGroup o chg_number ts s g =
      appendBlock s (groupBlock o chg_number ts g) := by
  unfold processGroup groupBlock
  by_cases h : o.accountSet g.1 = 0
  · simp only [h, if_neg, ite_true, ite_false, not_true_eq_false]
    have main : ∀ (vms : List (String × String)) (s' : RunState),
        vms.foldl (processGroupVM o chg_number ts) s' =
          appendBlock s' (vms.flatMap (vmStepBlock o chg_number ts)) := by
      intro vms
      induction vms with
      | nil => intro s'; simp [appendBlock_nil]
      | cons rec rest ih =>
          intro s'
          simp only [List.foldl_cons, List.flatMap_cons, processGroupVM_eq, ih,
            appendBlock_append]
    rw [main]
    simp only [emit, appendBlock]
    simp [List.filterMap, getSuccessEvent, getFailureEvent, getAppendEvent]
  · simp only [h, if_pos, ite_false, ite_true, not_false_eq_true]
    have main : ∀ (vms : List (String × String)) (s' : RunState),
        vms.foldl (fun s rec => recordFailure s rec.2 "Failed to set subscription") s' =
          appendBlock s'
            (vms.map (fun rec => Event.recordFailure rec.2 "Failed to set subscription")) := by
      intro vms
      induction vms with
      | nil => intro s'; simp [appendBlock_nil]
      | cons rec rest ih =>
          intro s'
          rw [List.foldl_cons, recordFailure_eq_appendBlock, ih, appendBlock_append]
          rfl
    rw [main]
    simp only [emit, appendBlock]
    simp [h, List.filterMap, getSuccessEvent, getFailureEvent, getAppendEvent]

/-- The whole orchestration run is the replay of the concatenated group
blocks from the empty state. -/
theorem mainRun_eq (o : Oracle) (chg_number ts : String) (vm_list : List String) :
    mainRun o chg_number ts vm_list =
      appendBlock initState
        ((group_vms_by_subscription vm_list).flatMap (groupBlock o chg_number ts)) := by
  unfold mainRun
  generalize group_vms_by_subscription vm_list = gs
  have main : ∀ (gs : List (String × List (String × String))) (s : RunState),
      gs.foldl (processGroup o chg_number ts) s =
        appendBlock s (gs.flatMap (groupBlock o chg_number ts)) := by
    intro gs
    induction gs with
    | nil => intro s; simp [appendBlock_nil]
    | cons g rest ih =>
        intro s
        simp only [List.foldl_cons, List.flatMap_cons, processGroup_eq, ih,
          appendBlock_append]
  exact main gs initState

/-! ## Properties of the grouping -/

theorem groupLookup_addToGroup (g : List (String × List (String × String)))
    (k k' : String) (v : String × String) :
    groupLookup (addToGroup g k v) k' =
      if k' = k then groupLookup g k ++ [v] else groupLookup g k' := by
  induction g with
  | nil =>
      by_cases h : k' = k
      · subst h; simp [addToGroup, groupLookup]
      · have h2 : ¬ k = k' := fun h' => h h'.symm
        simp [addToGroup, groupLookup, h, h2]
  | cons p rest ih =>
      obtain ⟨k₀, vs⟩ := p
      by_cases h0 : k₀ = k
      · subst h0
        by_cases h : k' = k₀
        · subst h; simp [addToGroup, groupLookup]
        · have h2 : ¬ k₀ = k' := fun h' => h h'.symm
          simp [addToGroup, groupLookup, h, h2]
      · have h0' : ¬ k = k₀ := fun h' => h0 h'.symm
        by_cases h : k' = k₀
        · have hk : ¬ k' = k := fun e => h0 (h.symm.trans e)
          have h2 : k₀ = k' := h.symm
          simp [addToGroup, groupLookup, h0, h2, hk]
        · have h2 : ¬ k₀ = k' := fun h' => h h'.symm
          simp only [addToGroup, if_neg h0, groupLookup, if_neg h2, ih]

theorem keys_addToGroup (g : List (String × List (String × String)))
    (k : String) (v : String × String) :
    (addToGroup g k v).map Prod.fst =
      if k ∈ g.map Prod.fst then g.map Prod.fst else g.map Prod.fst ++ [k] := by
  induction g with
  | nil => simp [addToGroup]
  | cons p rest ih =>
      obtain ⟨k₀, vs⟩ := p
      by_cases h0 : k₀ = k
      · subst h0; simp [addToGroup]
      · have h0' : ¬ k = k₀ := fun h' => h0 h'.symm
        simp only [addToGroup, if_neg h0, List.map_cons, ih, List.mem_cons, h0',
          false_or]
        by_cases hm : k ∈ rest.map Prod.fst <;> simp [hm]

theorem flat_addToGroup_perm (g : List (String × List (String × String)))
    (k : String) (v : String × String) :
    ((addToGroup g k v).flatMap Prod.snd).Perm (g.flatMap Prod.snd ++ [v]) := by
  induction g with
  | nil => simp [addToGroup]
  | cons p rest ih =>
      obtain ⟨k₀, vs⟩ := p
      by_cases h0 : k₀ = k
      · subst h0
        have hadd : addToGroup ((k₀, vs) :: rest) k₀ v = (k₀, vs ++ [v]) :: rest := by
          simp [addToGroup]
        rw [hadd]
        simp only [List.flatMap_cons, List.append_assoc]
        exact List.Perm.append_left vs List.perm_append_comm
      · have hadd : addToGroup ((k₀, vs) :: rest) k v =
            (k₀, vs) :: addToGroup rest k v := by
          simp [addToGroup, h0]
        rw [hadd]
        simp only [List.flatMap_cons, List.append_assoc]
        exact List.Perm.append_left vs ih

/-- Membership of an entry with a non-empty bucket. -/
theorem mem_of_groupLookup_ne_nil (g : List (String × List (String × String)))
    (k : String) (h : groupLookup g k ≠ []) : (k, groupLookup g k) ∈ g := by
  induction g with
  | nil => simp [groupLookup] at h
  | cons p rest ih =>
      obtain ⟨k₀, vs⟩ := p
      by_cases h0 : k₀ = k
      · subst h0
        simp only [groupLookup, if_pos rfl]
        exact List.mem_cons_self _ _
      · simp only [groupLookup, if_neg h0] at h ⊢
        exact List.mem_cons_of_mem _ (ih h)

/-- The per-key buckets of the grouping are exactly the key-filtered parsed
input, in input order. -/
theorem groupLookup_group_vms (vm_list : List String) (k : String) :
    groupLookup (group_vms_by_subscription vm_list) k =
      (vm_list.map parseLine).filter (fun r => subscriptionOf r.1 = k) := by
  unfold group_vms_by_subscription
  have main : ∀ (lines : List String) (g : List (String × List (String × String))),
      groupLookup
          (lines.foldl (fun g line => addToGroup g (subscriptionOf (parseLine line).1)
            (parseLine line)) g) k =
        groupLookup g k ++
          (lines.map parseLine).filter (fun r => subscriptionOf r.1 = k) := by
    intro lines
    induction lines with
    | nil => intro g; simp
    | cons line rest ih =>
        intro g
        simp only [List.foldl_cons, List.map_cons, ih, groupLookup_addToGroup,
          List.filter_cons]
        by_cases h : subscriptionOf (parseLine line).1 = k
        · simp [h, List.append_assoc]
        · have h' : ¬ k = subscriptionOf (parseLine line).1 := fun h' => h h'.symm
          simp [h, h']
  simpa [groupLookup] using main vm_list []

/-- The grouping's buckets concatenate to a permutation of the parsed input. -/
theorem group_vms_flat_perm (vm_list : List String) :
    ((group_vms_by_subscription vm_list).flatMap Prod.snd).Perm
      (vm_list.map parseLine) := by
  unfold group_vms_by_subscription
  have main : ∀ (lines : List String) (g : List (String × List (String × String))),
      ((lines.foldl (fun g line => addToGroup g (subscriptionOf (parseLine line).1)
          (parseLine line)) g).flatMap Prod.snd).Perm
        (g.flatMap Prod.snd ++ lines.map parseLine) := by
    intro lines
    induction lines with
    | nil => intro g; simp
    | cons line rest ih =>
        intro g
        simp only [List.foldl_cons, List.map_cons]
        refine (ih _).trans ?_
        refine (List.Perm.append_right _ (flat_addToGroup_perm g _ _)).trans ?_
        simp [List.append_assoc]
  simpa using main vm_list []

/-- The grouping's keys are the input's subscription keys in first-seen order. -/
theorem keys_group_vms (vm_list : List String) :
    (group_vms_by_subscription vm_list).map Prod.fst =
      firstSeen (vm_list.map (fun line => subscriptionOf (parseLine line).1)) := by
  unfold group_vms_by_subscription firstSeen
  have main : ∀ (lines : List String) (g : List (String × List (String × String))),
      (lines.foldl (fun g line => addToGroup g (subscriptionOf (parseLine line).1)
          (parseLine line)) g).map Prod.fst =
        (lines.map (fun line => subscriptionOf (parseLine line).1)).foldl
          (fun acc k => if k ∈ acc then acc else acc ++ [k]) (g.map Prod.fst) := by
    intro lines
    induction lines with
    | nil => intro g; simp
    | cons line rest ih =>
        intro g
        simp only [List.foldl_cons, List.map_cons, ih, keys_addToGroup]
  simpa using main vm_list []

/-- A key-buckets invariant (every bucket member carries the bucket's key) is
preserved by `addToGroup` of a record under its own key. -/
theorem addToGroup_key_invariant (P : String × String → String → Prop)
    (g : List (String × List (String × String))) (k₁ : String) (v : String × String)
    (hinv : ∀ k' vs rec', (k', vs) ∈ g → rec' ∈ vs → P rec' k')
    (hv : P v k₁) :
    ∀ k' vs rec', (k', vs) ∈ addToGroup g k₁ v → rec' ∈ vs → P rec' k' := by
  induction g with
  | nil =>
      intro k' vs rec' hmem hrec
      simp only [addToGroup, List.mem_singleton, Prod.mk.injEq] at hmem
      obtain ⟨hk, hvs⟩ := hmem
      subst hk; subst hvs
      simp only [List.mem_singleton] at hrec
      subst hrec; exact hv
  | cons p tail ihg =>
      obtain ⟨k₀, vs₀⟩ := p
      intro k' vs rec' hmem hrec
      by_cases h0 : k₀ = k₁
      · subst h0
        have hadd : addToGroup ((k₀, vs₀) :: tail) k₀ v = (k₀, vs₀ ++ [v]) :: tail := by
          simp [addToGroup]
        rw [hadd] at hmem
        rcases List.mem_cons.mp hmem with h | h
        · have hk : k' = k₀ := congrArg Prod.fst h
          have hvs : vs = vs₀ ++ [v] := congrArg Prod.snd h
          subst hk; subst hvs
          rcases List.mem_append.mp hrec with h2 | h2
          · exact hinv _ _ _ (List.mem_cons_self _ _) h2
          · simp only [List.mem_singleton] at h2; subst h2; exact hv
        · exact hinv _ _ _ (List.mem_cons_of_mem _ h) hrec
      · have hadd : addToGroup ((k₀, vs₀) :: tail) k₁ v =
            (k₀, vs₀) :: addToGroup tail k₁ v := by
          simp [addToGroup, h0]
        rw [hadd] at hmem
        rcases List.mem_cons.mp hmem with h | h
        · have hk : k' = k₀ := congrArg Prod.fst h
          have hvs : vs = vs₀ := congrArg Prod.snd h
          subst hk; subst hvs
          exact hinv _ _ _ (List.mem_cons_self _ _) hrec
        · exact ihg (fun k' vs rec' h1 h2 =>
            hinv _ _ _ (List.mem_cons_of_mem _ h1) h2) _ _ _ h hrec

/-- Every record in a bucket carries that bucket's key as the third
slash-segment of its resource id. -/
theorem key_of_mem_group (vm_list : List String) (k : String)
    (vms : List (String × String)) (rec : String × String)
    (hg : (k, vms) ∈ group_vms_by_subscription vm_list) (hr : rec ∈ vms) :
    subscriptionOf rec.1 = k := by
  unfold group_vms_by_subscription at hg
  have main : ∀ (lines : List String) (g : List (String × List (String × String))),
      (∀ k' vs rec', (k', vs) ∈ g → rec' ∈ vs → subscriptionOf rec'.1 = k') →
      ∀ k' vs rec',
        (k', vs) ∈ lines.foldl (fun g line =>
          addToGroup g (subscriptionOf (parseLine line).1) (parseLine line)) g →
        rec' ∈ vs → subscriptionOf rec'.1 = k' := by
    intro lines
    induction lines with
    | nil => intro g hg; simpa using hg
    | cons line rest ih =>
        intro g hg
        simp only [List.foldl_cons]
        exact ih _ (addToGroup_key_invariant (fun rec' k' => subscriptionOf rec'.1 = k')
          g _ _ hg rfl)
  exact main vm_list [] (by simp) k vms rec hg hr

/-! ## Temporal properties as state machines over the trace

A trace property is expressed as a deterministic state machine consumed by
`scanEvents`: `none` means the property was violated, `some st` means the scan
survived ending in state `st`. -/

theorem scanEvents_append {σ : Type} (step : σ → Event → Option σ)
    (a b : List Event) : ∀ st, scanEvents step st (a ++ b) =
      (scanEvents step st a).bind (fun st' => scanEvents step st' b) := by
  induction a with
  | nil => intro st; simp [scanEvents]
  | cons e rest ih =>
      intro st
      rw [List.cons_append]
      cases hstep : step st e with
      | none => simp [scanEvents, hstep]
      | some st' => simp [scanEvents, hstep, ih]

/-- Scanning a concatenation of blocks each of which returns the machine to
the start state succeeds and returns the start state. -/
theorem scanEvents_flatMap {σ α : Type} (step : σ → Event → Option σ) (st : σ)
    (gs : List α) (f : α → List Event)
    (h : ∀ g ∈ gs, scanEvents step st (f g) = some st) :
    scanEvents step st (gs.flatMap f) = some st := by
  induction gs with
  | nil => simp [scanEvents]
  | cons g rest ih =>
      rw [List.flatMap_cons, scanEvents_append, h g (List.mem_cons_self g rest)]
      exact ih (fun g' hg' => h g' (List.mem_cons_of_mem _ hg'))

/-- The create-inflight machine tracks the difference between issued and
completed create commands. -/
theorem createStep_count (p : List Event) :
    ∀ n m, scanEvents createStep n p = some m →
      m + p.countP isCreateComplete = n + p.countP isCreateIssue := by
  induction p with
  | nil =>
      intro n m h
      simp [scanEvents] at h
      subst h; simp
  | cons e rest ih =>
      intro n m h
      cases hstep : createStep n e with
      | none => simp [scanEvents, hstep] at h
      | some n' =>
          simp only [scanEvents, hstep] at h
          have hc := ih n' m h
          cases e with
          | createIssue rid vm name =>
              by_cases hn : n = 0
              · subst hn
                simp [createStep] at hstep
                simp [List.countP_cons, isCreateIssue, isCreateComplete]
                omega
              · simp [createStep, hn] at hstep
          | createComplete vm rc =>
              cases n with
              | zero => simp [createStep] at hstep
              | succ k =>
                  simp [createStep] at hstep
                  subst hstep
                  simp [List.countP_cons, isCreateIssue, isCreateComplete]
                  omega
          | cmdAccountSet a b =>
              simp [createStep] at hstep; subst hstep
              simpa [List.countP_cons, isCreateIssue, isCreateComplete] using hc
          | cmdVmShow a b =>
              simp [createStep] at hstep; subst hstep
              simpa [List.countP_cons, isCreateIssue, isCreateComplete] using hc
          | semAcquire a =>
              simp [createStep] at hstep; subst hstep
              simpa [List.countP_cons, isCreateIssue, isCreateComplete] using hc
          | appendRid a =>
              simp [createStep] at hstep; subst hstep
              simpa [List.countP_cons, isCreateIssue, isCreateComplete] using hc
          | recordSuccess a b =>
              simp [createStep] at hstep; subst hstep
              simpa [List.countP_cons, isCreateIssue, isCreateComplete] using hc
          | recordFailure a b =>
              simp [createStep] at hstep; subst hstep
              simpa [List.countP_cons, isCreateIssue, isCreateComplete] using hc
          | semRelease a =>
              simp [createStep] at hstep; subst hstep
              simpa [List.countP_cons, isCreateIssue, isCreateComplete] using hc

/-- The create-inflight machine never exceeds one in-flight command when
started at or below one. -/
theorem createStep_le_one (p : List Event) :
    ∀ n m, n ≤ 1 → scanEvents createStep n p = some m → m ≤ 1 := by
  induction p with
  | nil =>
      intro n m hn h
      simp [scanEvents] at h
      subst h; exact hn
  | cons e rest ih =>
      intro n m hn h
      cases hstep : createStep n e with
      | none => simp [scanEvents, hstep] at h
      | some n' =>
          simp only [scanEvents, hstep] at h
          refine ih n' m ?_ h
          cases e with
          | createIssue rid vm name =>
              by_cases h0 : n = 0
              · subst h0; simp [createStep] at hstep; omega
              · simp [createStep, h0] at hstep
          | createComplete vm rc =>
              cases n with
              | zero => simp [createStep] at hstep
              | succ k => simp [createStep] at hstep; omega
          | cmdAccountSet a b => simp [createStep] at hstep; omega
          | cmdVmShow a b => simp [createStep] at hstep; omega
          | semAcquire a => simp [createStep] at hstep; omega
          | appendRid a => simp [createStep] at hstep; omega
          | recordSuccess a b => simp [createStep] at hstep; omega
          | recordFailure a b => simp [createStep] at hstep; omega
          | semRelease a => simp [createStep] at hstep; omega

/-- If the create-inflight scan of a whole trace succeeds from the empty
state, then along every prefix at most one create command is in flight. -/
theorem prefix_inflight_le_one (evs p : List Event) (m : Nat)
    (h : scanEvents createStep 0 evs = some m) (hp : p <+: evs) :
    p.countP isCreateIssue ≤ p.countP isCreateComplete + 1 := by
  obtain ⟨q, rfl⟩ := hp
  rw [scanEvents_append] at h
  cases hscan : scanEvents createStep 0 p with
  | none => rw [hscan] at h; simp at h
  | some k =>
      have hc := createStep_count p 0 k hscan
      have hk := createStep_le_one p 0 k (by omega) hscan
      omega

/-! ## The three machines accept every block of the run -/

theorem semScan_vmBlock (o : Oracle) (chg_number ts rid vm rg dk : String) :
    scanEvents semStep false (vmBlock o chg_number ts rid vm rg dk) = some false := by
  unfold vmBlock
  by_cases h : (o.snapshotCreate (snapshotNameOf chg_number vm ts) rg dk).returncode = 0
  · rcases hid : (o.snapshotCreate (snapshotNameOf chg_number vm ts) rg dk).id with _ | sid
    · simp [h, hid, scanEvents, semStep]
    · simp [h, hid, scanEvents, semStep]
  · simp [h, scanEvents, semStep]

theorem semScan_vmStepBlock (o : Oracle) (chg_number ts : String)
    (rec : String × String) :
    scanEvents semStep false (vmStepBlock o chg_number ts rec) = some false := by
  unfold vmStepBlock
  by_cases h : (o.vmShow rec.1).returncode = 0
  · simp [h, scanEvents, semStep, semScan_vmBlock]
  · simp [h, scanEvents, semStep]

theorem semScan_failList (vms : List (String × String)) (reason : String) :
    scanEvents semStep false
      (vms.map (fun rec => Event.recordFailure rec.2 reason)) = some false := by
  induction vms with
  | nil => simp [scanEvents]
  | cons rec rest ih => simp [scanEvents, semStep, ih]

theorem semScan_groupBlock (o : Oracle) (chg_number ts : String)
    (g : String × List (String × String)) :
    scanEvents semStep false (groupBlock o chg_number ts g) = some false := by
  unfold groupBlock
  by_cases h : o.accountSet g.1 = 0
  · have hrest := scanEvents_flatMap semStep false g.2 (vmStepBlock o chg_number ts)
      (fun rec _ => semScan_vmStepBlock o chg_number ts rec)
    simp [h, scanEvents, semStep, hrest]
  · simp [h, scanEvents, semStep, semScan_failList]

/-- The semaphore machine accepts the whole trace of any run: the semaphore is
acquired before every create command, never acquired twice at once, and
released on every exit path, ending free. -/
theorem semScan_mainRun (o : Oracle) (chg_number ts : String)
    (vm_list : List String) :
    scanEvents semStep false (mainRun o chg_number ts vm_list).events = some false := by
  rw [mainRun_eq]
  show scanEvents semStep false ([] ++ _) = some false
  rw [List.nil_append]
  exact scanEvents_flatMap semStep false _ (groupBlock o chg_number ts)
    (fun g _ => semScan_groupBlock o chg_number ts g)

theorem createScan_vmBlock (o : Oracle) (chg_number ts rid vm rg dk : String) :
    scanEvents createStep 0 (vmBlock o chg_number ts rid vm rg dk) = some 0 := by
  unfold vmBlock
  by_cases h : (o.snapshotCreate (snapshotNameOf chg_number vm ts) rg dk).returncode = 0
  · rcases hid : (o.snapshotCreate (snapshotNameOf chg_number vm ts) rg dk).id with _ | sid
    · simp [h, hid, scanEvents, createStep]
    · simp [h, hid, scanEvents, createStep]
  · simp [h, scanEvents, createStep]

theorem createScan_vmStepBlock (o : Oracle) (chg_number ts : String)
    (rec : String × String) :
    scanEvents createStep 0 (vmStepBlock o chg_number ts rec) = some 0 := by
  unfold vmStepBlock
  by_cases h : (o.vmShow rec.1).returncode = 0
  · simp [h, scanEvents, createStep, createScan_vmBlock]
  · simp [h, scanEvents, createStep]

theorem createScan_failList (vms : List (String × String)) (reason : String) :
    scanEvents createStep 0
      (vms.map (fun rec => Event.recordFailure rec.2 reason)) = some 0 := by
  induction vms with
  | nil => simp [scanEvents]
  | cons rec rest ih => simp [scanEvents, createStep, ih]

theorem createScan_groupBlock (o : Oracle) (chg_number ts : String)
    (g : String × List (String × String)) :
    scanEvents createStep 0 (groupBlock o chg_number ts g) = some 0 := by
  unfold groupBlock
  by_cases h : o.accountSet g.1 = 0
  · have hrest := scanEvents_flatMap createStep 0 g.2 (vmStepBlock o chg_number ts)
      (fun rec _ => createScan_vmStepBlock o chg_number ts rec)
    simp [h, scanEvents, createStep, hrest]
  · simp [h, scanEvents, createStep, createScan_failList]

/-- The create-inflight machine accepts the whole trace of any run: a create
command is only ever issued when no other one is in flight. -/
theorem createScan_mainRun (o : Oracle) (chg_number ts : String)
    (vm_list : List String) :
    scanEvents createStep 0 (mainRun o chg_number ts vm_list).events = some 0 := by
  rw [mainRun_eq]
  show scanEvents createStep 0 ([] ++ _) = some 0
  rw [List.nil_append]
  exact scanEvents_flatMap createStep 0 _ (groupBlock o chg_number ts)
    (fun g _ => createScan_groupBlock o chg_number ts g)

theorem pairScan_vmBlock (o : Oracle) (chg_number ts rid vm rg dk : String) :
    scanEvents pairStep none (vmBlock o chg_number ts rid vm rg dk) = some none := by
  unfold vmBlock
  by_cases h : (o.snapshotCreate (snapshotNameOf chg_number vm ts) rg dk).returncode = 0
  · rcases hid : (o.snapshotCreate (snapshotNameOf chg_number vm ts) rg dk).id with _ | sid
    · simp [h, hid, scanEvents, pairStep]
    · simp [h, hid, scanEvents, pairStep]
  · simp [h, scanEvents, pairStep]

theorem pairScan_vmStepBlock (o : Oracle) (chg_number ts : String)
    (rec : String × String) :
    scanEvents pairStep none (vmStepBlock o chg_number ts rec) = some none := by
  unfold vmStepBlock
  by_cases h : (o.vmShow rec.1).returncode = 0
  · simp [h, scanEvents, pairStep, pairScan_vmBlock]
  · simp [h, scanEvents, pairStep]

theorem pairScan_failList (vms : List (String × String)) (reason : String) :
    scanEvents pairStep none
      (vms.map (fun rec => Event.recordFailure rec.2 reason)) = some none := by
  induction vms with
  | nil => simp [scanEvents]
  | cons rec rest ih => simp [scanEvents, pairStep, ih]

theorem pairScan_groupBlock (o : Oracle) (chg_number ts : String)
    (g : String × List (String × String)) :
    scanEvents pairStep none (groupBlock o chg_number ts g) = some none := by
  unfold groupBlock
  by_cases h : o.accountSet g.1 = 0
  · have hrest := scanEvents_flatMap pairStep none g.2 (vmStepBlock o chg_number ts)
      (fun rec _ => pairScan_vmStepBlock o chg_number ts rec)
    simp [h, scanEvents, pairStep, hrest]
  · simp [h, scanEvents, pairStep, pairScan_failList]

/-- The append/success pairing machine accepts the whole trace of any run:
every durable append is immediately followed by the success record it belongs
to, and every success record is immediately preceded by its durable append. -/
theorem pairScan_mainRun (o : Oracle) (chg_number ts : String)
    (vm_list : List String) :
    scanEvents pairStep none (mainRun o chg_number ts vm_list).events = some none := by
  rw [mainRun_eq]
  show scanEvents pairStep none ([] ++ _) = some none
  rw [List.nil_append]
  exact scanEvents_flatMap pairStep none _ (groupBlock o chg_number ts)
    (fun g _ => pairScan_groupBlock o chg_number ts g)

/-! ## One outcome per input record -/

theorem filterMap_flatMap {α β γ : Type} (l : List α) (f : α → List β)
    (p : β → Option γ) :
    (l.flatMap f).filterMap p = l.flatMap (fun a => (f a).filterMap p) := by
  induction l with
  | nil => simp
  | cons a rest ih => simp [List.filterMap_append, ih]

theorem append_flatMap_perm {α β : Type} (gs : List α) (A B : α → List β) :
    (gs.flatMap A ++ gs.flatMap B).Perm (gs.flatMap (fun g => A g ++ B g)) := by
  induction gs with
  | nil => simp
  | cons g rest ih =>
      simp only [List.flatMap_cons]
      have h1 : (A g ++ rest.flatMap A) ++ (B g ++ rest.flatMap B) =
          A g ++ (rest.flatMap A ++ (B g ++ rest.flatMap B)) := by
        simp [List.append_assoc]
      rw [h1]
      refine (List.Perm.append_left _ (List.perm_append_comm_assoc _ _ _)).trans ?_
      have h2 : A g ++ (B g ++ (rest.flatMap A ++ rest.flatMap B)) =
          (A g ++ B g) ++ (rest.flatMap A ++ rest.flatMap B) := by
        simp [List.append_assoc]
      rw [h2]
      exact List.Perm.append_left _ ih

theorem blockNames_vmBlock (o : Oracle) (chg_number ts rid vm rg dk : String) :
    blockNames (vmBlock o chg_number ts rid vm rg dk) = [vm] := by
  unfold blockNames vmBlock
  by_cases h : (o.snapshotCreate (snapshotNameOf chg_number vm ts) rg dk).returncode = 0
  · rcases hid : (o.snapshotCreate (snapshotNameOf chg_number vm ts) rg dk).id with _ | sid
    · simp [h, hid, List.filterMap_append, List.filterMap,
        getSuccessEvent, getFailureEvent]
    · simp [h, hid, List.filterMap_append, List.filterMap,
        getSuccessEvent, getFailureEvent]
  · simp [h, List.filterMap_append, List.filterMap, getSuccessEvent, getFailureEvent]

theorem blockNames_vmStepBlock (o : Oracle) (chg_number ts : String)
    (rec : String × String) :
    blockNames (vmStepBlock o chg_number ts rec) = [rec.2] := by
  unfold vmStepBlock
  by_cases h : (o.vmShow rec.1).returncode = 0
  · have := blockNames_vmBlock o chg_number ts rec.1 rec.2
      (o.vmShow rec.1).resourceGroup (o.vmShow rec.1).diskId
    unfold blockNames at this ⊢
    simp only [h, ite_false, ite_true, if_neg, not_true_eq_false] at *
    simpa [List.filterMap, getSuccessEvent, getFailureEvent] using this
  · unfold blockNames
    simp [h, List.filterMap, getSuccessEvent, getFailureEvent]

theorem blockNames_groupBlock_perm (o : Oracle) (chg_number ts : String)
    (g : String × List (String × String)) :
    (blockNames (groupBlock o chg_number ts g)).Perm (g.2.map Prod.snd) := by
  unfold groupBlock
  by_cases h : o.accountSet g.1 = 0
  · have hflat : blockNames (g.2.flatMap (vmStepBlock o chg_number ts)) =
        (g.2.flatMap fun rec =>
          ((vmStepBlock o chg_number ts rec).filterMap getSuccessEvent).map Prod.fst) ++
        (g.2.flatMap fun rec =>
          ((vmStepBlock o chg_number ts rec).filterMap getFailureEvent).map Prod.fst) := by
      unfold blockNames
      rw [filterMap_flatMap, filterMap_flatMap]
      simp [List.map_flatMap]
    have hcons : blockNames (Event.cmdAccountSet g.1 (o.accountSet g.1) ::
        g.2.flatMap (vmStepBlock o chg_number ts)) =
        blockNames (g.2.flatMap (vmStepBlock o chg_number ts)) := by
      unfold blockNames
      simp [List.filterMap, getSuccessEvent, getFailureEvent]
    rw [if_neg (by simp [h] : ¬ o.accountSet g.1 ≠ 0)]
    rw [hcons, hflat]
    refine (append_flatMap_perm g.2 _ _).trans ?_
    have : (g.2.flatMap fun rec =>
        ((vmStepBlock o chg_number ts rec).filterMap getSuccessEvent).map Prod.fst ++
        ((vmStepBlock o chg_number ts rec).filterMap getFailureEvent).map Prod.fst) =
        g.2.flatMap (fun rec => [rec.2]) := by
      congr 1
      funext rec
      exact blockNames_vmStepBlock o chg_number ts rec
    rw [this]
    have hsing : ∀ (vms : List (String × String)),
        (vms.flatMap fun rec => [rec.2]) = vms.map Prod.snd := by
      intro vms
      induction vms with
      | nil => rfl
      | cons rec rest ih => simp [ih]
    rw [hsing]
  · have hnil : ∀ (vms : List (String × String)),
        List.filterMap getSuccessEvent
          (vms.map (fun rec => Event.recordFailure rec.2 "Failed to set subscription")) = [] := by
      intro vms
      induction vms with
      | nil => rfl
      | cons rec rest ih => simp [List.filterMap_cons, getSuccessEvent, ih]
    have hfail : ∀ (vms : List (String × String)),
        List.filterMap getFailureEvent
          (vms.map (fun rec => Event.recordFailure rec.2 "Failed to set subscription")) =
          vms.map (fun rec => (rec.2, "Failed to set subscription")) := by
      intro vms
      induction vms with
      | nil => rfl
      | cons rec rest ih => simp [List.filterMap_cons, getFailureEvent, ih]
    rw [if_pos h]
    unfold blockNames
    simp only [List.filterMap_cons, getSuccessEvent, getFailureEvent, hnil, hfail,
      List.map_map, List.map_nil, List.nil_append]
    have hcomp : (Prod.fst ∘ fun rec : String × String =>
        (rec.2, "Failed to set subscription")) = Prod.snd := by
      funext rec; rfl
    rw [hcomp]

/-- Every run records exactly one outcome per input record: the multiset of
VM names across the success and failure accumulators equals the multiset of
parsed input VM names. -/
theorem outcomeNames_mainRun_perm (o : Oracle) (chg_number ts : String)
    (vm_list : List String) :
    ((mainRun o chg_number ts vm_list).successful_snapshots.map Prod.fst ++
      (mainRun o chg_number ts vm_list).failed_snapshots.map Prod.fst).Perm
      (vm_list.map (fun line => (parseLine line).2)) := by
  rw [mainRun_eq]
  show (blockNames ([] ++ (group_vms_by_subscription vm_list).flatMap
    (groupBlock o chg_number ts))).Perm _
  rw [List.nil_append]
  have h1 : (blockNames ((group_vms_by_subscription vm_list).flatMap
      (groupBlock o chg_number ts))).Perm
      ((group_vms_by_subscription vm_list).flatMap (fun g => g.2.map Prod.snd)) := by
    unfold blockNames
    rw [filterMap_flatMap, filterMap_flatMap]
    rw [List.map_flatMap, List.map_flatMap]
    refine (append_flatMap_perm _ _ _).trans ?_
    have : ((group_vms_by_subscription vm_list).flatMap fun g =>
        ((groupBlock o chg_number ts g).filterMap getSuccessEvent).map Prod.fst ++
        ((groupBlock o chg_number ts g).filterMap getFailureEvent).map Prod.fst) =
        (group_vms_by_subscription vm_list).flatMap fun g =>
          blockNames (groupBlock o chg_number ts g) := rfl
    rw [this]
    have main : ∀ (gs : List (String × List (String × String))),
        (gs.flatMap fun g => blockNames (groupBlock o chg_number ts g)).Perm
          (gs.flatMap fun g => g.2.map Prod.snd) := by
      intro gs
      induction gs with
      | nil => simp
      | cons g rest ih =>
          simp only [List.flatMap_cons]
          exact List.Perm.append (blockNames_groupBlock_perm o chg_number ts g) ih
    exact main _
  refine h1.trans ?_
  have h2 : ((group_vms_by_subscription vm_list).flatMap fun g => g.2.map Prod.snd) =
      ((group_vms_by_subscription vm_list).flatMap Prod.snd).map Prod.snd := by
    rw [List.map_flatMap]
  rw [h2]
  have := (group_vms_flat_perm vm_list).map (Prod.snd : String × String → String)
  simpa [List.map_map] using this

/-! ## Which events can occur where -/

theorem mem_vmBlock_createIssue (o : Oracle) (c t rid vm rg dk rid' vm' n : String)
    (h : Event.createIssue rid' vm' n ∈ vmBlock o c t rid vm rg dk) :
    rid' = rid ∧ vm' = vm ∧ n = snapshotNameOf c vm t := by
  unfold vmBlock at h
  by_cases hrc : (o.snapshotCreate (snapshotNameOf c vm t) rg dk).returncode = 0
  · rcases hid : (o.snapshotCreate (snapshotNameOf c vm t) rg dk).id with _ | sid
    · simp [hrc, hid] at h
      exact h
    · simp [hrc, hid] at h
      exact h
  · simp [hrc] at h
    exact h

theorem not_mem_vmBlock_cmdVmShow (o : Oracle) (c t rid vm rg dk rid' : String)
    (rc : Int) : Event.cmdVmShow rid' rc ∉ vmBlock o c t rid vm rg dk := by
  unfold vmBlock
  by_cases hrc : (o.snapshotCreate (snapshotNameOf c vm t) rg dk).returncode = 0
  · rcases hid : (o.snapshotCreate (snapshotNameOf c vm t) rg dk).id with _ | sid
    · simp [hrc, hid]
    · simp [hrc, hid]
  · simp [hrc]

theorem mem_vmStepBlock_cmdVmShow (o : Oracle) (c t : String)
    (rec : String × String) (rid' : String) (rc' : Int)
    (h : Event.cmdVmShow rid' rc' ∈ vmStepBlock o c t rec) : rid' = rec.1 := by
  unfold vmStepBlock at h
  by_cases hrc : (o.vmShow rec.1).returncode = 0
  · simp only [hrc, ite_false, ite_true, if_neg, not_true_eq_false,
      List.mem_cons] at h
    rcases h with h | h
    · exact congrArg (fun e => match e with
        | Event.cmdVmShow r _ => r
        | _ => rid') h
    · exact absurd h (not_mem_vmBlock_cmdVmShow o c t rec.1 rec.2 _ _ rid' rc')
  · simp [hrc] at h
    exact h.1

theorem mem_vmStepBlock_createIssue (o : Oracle) (c t : String)
    (rec : String × String) (rid' vm' n : String)
    (h : Event.createIssue rid' vm' n ∈ vmStepBlock o c t rec) :
    rid' = rec.1 ∧ vm' = rec.2 ∧ n = snapshotNameOf c rec.2 t := by
  unfold vmStepBlock at h
  by_cases hrc : (o.vmShow rec.1).returncode = 0
  · simp only [hrc, ite_false, ite_true, if_neg, not_true_eq_false,
      List.mem_cons] at h
    rcases h with h | h
    · exact absurd h (by simp)
    · exact mem_vmBlock_createIssue o c t rec.1 rec.2 _ _ rid' vm' n h
  · simp [hrc] at h

theorem mem_groupBlock_cmdVmShow (o : Oracle) (c t : String)
    (g : String × List (String × String)) (rid' : String) (rc' : Int)
    (h : Event.cmdVmShow rid' rc' ∈ groupBlock o c t g) :
    o.accountSet g.1 = 0 ∧ ∃ rec ∈ g.2, rid' = rec.1 := by
  unfold groupBlock at h
  by_cases ha : o.accountSet g.1 = 0
  · rw [if_neg (by simp [ha] : ¬ o.accountSet g.1 ≠ 0)] at h
    rcases List.mem_cons.mp h with h | h
    · exact absurd h (by simp)
    · obtain ⟨rec, hrec, hmem⟩ := List.mem_flatMap.mp h
      exact ⟨ha, rec, hrec, mem_vmStepBlock_cmdVmShow o c t rec rid' rc' hmem⟩
  · rw [if_pos ha] at h
    rcases List.mem_cons.mp h with h | h
    · exact absurd h (by simp)
    · obtain ⟨rec, hrec, hmem⟩ := List.mem_map.mp h
      exact absurd hmem.symm (by simp)

theorem mem_groupBlock_createIssue (o : Oracle) (c t : String)
    (g : String × List (String × String)) (rid' vm' n : String)
    (h : Event.createIssue rid' vm' n ∈ groupBlock o c t g) :
    o.accountSet g.1 = 0 ∧
      ∃ rec ∈ g.2, rid' = rec.1 ∧ vm' = rec.2 ∧ n = snapshotNameOf c rec.2 t := by
  unfold groupBlock at h
  by_cases ha : o.accountSet g.1 = 0
  · rw [if_neg (by simp [ha] : ¬ o.accountSet g.1 ≠ 0)] at h
    rcases List.mem_cons.mp h with h | h
    · exact absurd h (by simp)
    · obtain ⟨rec, hrec, hmem⟩ := List.mem_flatMap.mp h
      exact ⟨ha, rec, hrec, mem_vmStepBlock_createIssue o c t rec rid' vm' n hmem⟩
  · rw [if_pos ha] at h
    rcases List.mem_cons.mp h with h | h
    · exact absurd h (by simp)
    · obtain ⟨rec, hrec, hmem⟩ := List.mem_map.mp h
      exact absurd hmem.symm (by simp)

/-- Membership of a record in its grouping bucket. -/
theorem mem_group_of_mem_parsed (vm_list : List String) (rec : String × String)
    (h : rec ∈ vm_list.map parseLine) :
    ∃ vms, (subscriptionOf rec.1, vms) ∈ group_vms_by_subscription vm_list ∧
      rec ∈ vms := by
  have hlook : rec ∈ groupLookup (group_vms_by_subscription vm_list)
      (subscriptionOf rec.1) := by
    rw [groupLookup_group_vms]
    exact List.mem_filter.mpr ⟨h, by simp⟩
  have hne : groupLookup (group_vms_by_subscription vm_list)
      (subscriptionOf rec.1) ≠ [] := by
    intro hcontra
    rw [hcontra] at hlook
    simp at hlook
  exact ⟨_, mem_of_groupLookup_ne_nil _ _ hne, hlook⟩

/-- A detail-lookup command only ever happens for a VM whose group's context
switch succeeded. -/
theorem cmdVmShow_mem_mainRun (o : Oracle) (c t : String) (vm_list : List String)
    (rid' : String) (rc' : Int)
    (h : Event.cmdVmShow rid' rc' ∈ (mainRun o c t vm_list).events) :
    o.accountSet (subscriptionOf rid') = 0 := by
  rw [mainRun_eq] at h
  have h' : Event.cmdVmShow rid' rc' ∈
      (group_vms_by_subscription vm_list).flatMap (groupBlock o c t) := by
    simpa [appendBlock, initState] using h
  obtain ⟨g, hg, hmem⟩ := List.mem_flatMap.mp h'
  obtain ⟨ha, rec, hrec, hrid⟩ := mem_groupBlock_cmdVmShow o c t g rid' rc' hmem
  have hkey : subscriptionOf rec.1 = g.1 :=
    key_of_mem_group vm_list g.1 g.2 rec (by exact hg) hrec
  rw [hrid, hkey]
  exact ha

/-- A create command only ever happens for a VM whose group's context switch
succeeded, and always carries the `RH_<chg>_<vm>_<ts>` name with the run's one
timestamp. -/
theorem createIssue_mem_mainRun (o : Oracle) (c t : String) (vm_list : List String)
    (rid' vm' n : String)
    (h : Event.createIssue rid' vm' n ∈ (mainRun o c t vm_list).events) :
    o.accountSet (subscriptionOf rid') = 0 ∧ n = snapshotNameOf c vm' t := by
  rw [mainRun_eq] at h
  have h' : Event.createIssue rid' vm' n ∈
      (group_vms_by_subscription vm_list).flatMap (groupBlock o c t) := by
    simpa [appendBlock, initState] using h
  obtain ⟨g, hg, hmem⟩ := List.mem_flatMap.mp h'
  obtain ⟨ha, rec, hrec, hrid, hvm, hn⟩ := mem_groupBlock_createIssue o c t g rid' vm' n hmem
  have hkey : subscriptionOf rec.1 = g.1 :=
    key_of_mem_group vm_list g.1 g.2 rec (by exact hg) hrec
  subst hvm
  constructor
  · rw [hrid, hkey]; exact ha
  · exact hn

/-- When a group's context switch fails, every VM of that group is recorded
as failed with the context-switch reason. -/
theorem switch_failed_recorded (o : Oracle) (c t : String) (vm_list : List String)
    (rec : String × String) (hin : rec ∈ vm_list.map parseLine)
    (hfail : o.accountSet (subscriptionOf rec.1) ≠ 0) :
    (rec.2, "Failed to set subscription") ∈ (mainRun o c t vm_list).failed_snapshots := by
  obtain ⟨vms, hg, hv⟩ := mem_group_of_mem_parsed vm_list rec hin
  rw [mainRun_eq]
  show _ ∈ [] ++ List.filterMap getFailureEvent _
  rw [List.nil_append]
  refine List.mem_filterMap.mpr
    ⟨Event.recordFailure rec.2 "Failed to set subscription", ?_, rfl⟩
  refine List.mem_flatMap.mpr ⟨(subscriptionOf rec.1, vms), hg, ?_⟩
  unfold groupBlock
  rw [if_pos (by simpa using hfail)]
  exact List.mem_cons_of_mem _ (List.mem_map.mpr ⟨rec, hv, rfl⟩)

/-! ## Durable-file facts -/

/-- The durable list file of a run is exactly the sequence of its append
events: nothing else ever writes it, so during the run it only grows. -/
theorem snap_rid_list_eq_appends (o : Oracle) (c t : String) (vm_list : List String) :
    (mainRun o c t vm_list).snap_rid_list =
      (mainRun o c t vm_list).events.filterMap getAppendEvent := by
  rw [mainRun_eq]
  simp [appendBlock, initState]

/-- Each step of the group loop only ever appends to the durable list file
(it is never truncated or rewritten). -/
theorem snap_rid_list_monotone (o : Oracle) (c t : String) (s : RunState)
    (g : String × List (String × String)) :
    s.snap_rid_list <+: (processGroup o c t s g).snap_rid_list := by
  rw [processGroup_eq]
  exact List.prefix_append _ _

/-! ## Counting appends and successes -/

theorem length_filterMap_getAppend (l : List Event) :
    (l.filterMap getAppendEvent).length = l.countP isAppendRid := by
  induction l with
  | nil => rfl
  | cons e rest ih =>
      cases e <;> simp [List.filterMap_cons, List.countP_cons, getAppendEvent,
        isAppendRid, ih]

theorem length_filterMap_getSuccess (l : List Event) :
    (l.filterMap getSuccessEvent).length = l.countP isRecordSuccess := by
  induction l with
  | nil => rfl
  | cons e rest ih =>
      cases e <;> simp [List.filterMap_cons, List.countP_cons, getSuccessEvent,
        isRecordSuccess, ih]

theorem pairStep_count (p : List Event) :
    ∀ st st', scanEvents pairStep st p = some st' →
      p.countP isRecordSuccess + pendWeight st' =
        p.countP isAppendRid + pendWeight st := by
  induction p with
  | nil =>
      intro st st' h
      simp [scanEvents] at h
      subst h; simp
  | cons e rest ih =>
      intro st st' h
      cases hstep : pairStep st e with
      | none => simp [scanEvents, hstep] at h
      | some st₁ =>
          simp only [scanEvents, hstep] at h
          have hc := ih st₁ st' h
          cases e with
          | appendRid sid =>
              cases st with
              | none =>
                  simp [pairStep] at hstep
                  subst hstep
                  simp only [List.countP_cons, isAppendRid, isRecordSuccess,
                    pendWeight] at hc ⊢
                  simp at hc ⊢
                  omega
              | some x => simp [pairStep] at hstep
          | recordSuccess vm n =>
              cases st with
              | none => simp [pairStep] at hstep
              | some x =>
                  simp [pairStep] at hstep
                  subst hstep
                  simp only [List.countP_cons, isAppendRid, isRecordSuccess,
                    pendWeight] at hc ⊢
                  simp at hc ⊢
                  omega
          | cmdAccountSet a b =>
              cases st with
              | none =>
                  simp [pairStep] at hstep; subst hstep
                  simpa [List.countP_cons, isAppendRid, isRecordSuccess] using hc
              | some x => simp [pairStep] at hstep
          | cmdVmShow a b =>
              cases st with
              | none =>
                  simp [pairStep] at hstep; subst hstep
                  simpa [List.countP_cons, isAppendRid, isRecordSuccess] using hc
              | some x => simp [pairStep] at hstep
          | semAcquire a =>
              cases st with
              | none =>
                  simp [pairStep] at hstep; subst hstep
                  simpa [List.countP_cons, isAppendRid, isRecordSuccess] using hc
              | some x => simp [pairStep] at hstep
          | createIssue a b c =>
              cases st with
              | none =>
                  simp [pairStep] at hstep; subst hstep
                  simpa [List.countP_cons, isAppendRid, isRecordSuccess] using hc
              | some x => simp [pairStep] at hstep
          | createComplete a b =>
              cases st with
              | none =>
                  simp [pairStep] at hstep; subst hstep
                  simpa [List.countP_cons, isAppendRid, isRecordSuccess] using hc
              | some x => simp [pairStep] at hstep
          | recordFailure a b =>
              cases st with
              | none =>
                  simp [pairStep] at hstep; subst hstep
                  simpa [List.countP_cons, isAppendRid, isRecordSuccess] using hc
              | some x => simp [pairStep] at hstep
          | semRelease a =>
              cases st with
              | none =>
                  simp [pairStep] at hstep; subst hstep
                  simpa [List.countP_cons, isAppendRid, isRecordSuccess] using hc
              | some x => simp [pairStep] at hstep

/-- Each success appends exactly one identifier: the durable file has exactly
as many lines as there are recorded successes. -/
theorem snap_rid_list_length (o : Oracle) (c t : String) (vm_list : List String) :
    (mainRun o c t vm_list).snap_rid_list.length =
      (mainRun o c t vm_list).successful_snapshots.length := by
  have hpair := pairScan_mainRun o c t vm_list
  have hc := pairStep_count (mainRun o c t vm_list).events none none hpair
  have h1 : (mainRun o c t vm_list).snap_rid_list =
      (mainRun o c t vm_list).events.filterMap getAppendEvent :=
    snap_rid_list_eq_appends o c t vm_list
  have h2 : (mainRun o c t vm_list).successful_snapshots =
      (mainRun o c t vm_list).events.filterMap getSuccessEvent := by
    rw [mainRun_eq]
    simp [appendBlock, initState]
  rw [h1, h2, length_filterMap_getAppend, length_filterMap_getSuccess]
  simpa [pendWeight] using hc.symm

/-! ## When is the VM list empty -/

theorem splitOnCharAux_length (c : Char) (cs : List Char) :
    ∀ acc, (splitOnCharAux c cs acc).length = cs.count c + 1 := by
  induction cs with
  | nil => intro acc; simp [splitOnCharAux]
  | cons x xs ih =>
      intro acc
      by_cases h : x = c
      · subst h
        simp [splitOnCharAux, ih, List.count_cons]
      · simp [splitOnCharAux, h, ih, List.count_cons, Ne.symm]

theorem splitlines_eq_nil_iff (s : String) : splitlines s = [] ↔ s = "" := by
  cases s with
  | mk data =>
      cases data with
      | nil =>
          constructor
          · intro _
            rfl
          · intro _
            rfl
      | cons x xs =>
          have hred : splitlines ⟨x :: xs⟩ =
              (if (x :: xs).getLast? = some '\n'
               then ((splitOnCharAux '\n' (x :: xs) []).map String.mk).dropLast
               else (splitOnCharAux '\n' (x :: xs) []).map String.mk) := rfl
          constructor
          · intro h
            exfalso
            rw [hred] at h
            by_cases hlast : (x :: xs).getLast? = some '\n'
            · rw [if_pos hlast] at h
              have hlen := congrArg List.length h
              rw [List.length_dropLast, List.length_map,
                splitOnCharAux_length] at hlen
              have hmem : '\n' ∈ x :: xs :=
                List.mem_of_mem_getLast? (l := x :: xs) (a := '\n') hlast
              have hcount : 0 < (x :: xs).count '\n' := List.count_pos_iff.mpr hmem
              simp at hlen
              omega
            · rw [if_neg hlast] at h
              have hlen := congrArg List.length h
              rw [List.length_map, splitOnCharAux_length] at hlen
              simp at hlen
          · intro h
            exact absurd (show x :: xs = [] from congrArg String.data h) (by simp)

/-! ## Well-formed input lines and concrete test data -/

/-! ## The claims -/

/-- **C1.** For every input VM list (each line well-formed, and every external
command answered by the structured oracle, which encodes well-formed
responses), the orchestration run records exactly one outcome — Success or
Failure — per input record: the multiset of VM names across the success and
failure accumulators equals the multiset of input VM names, so no VM is
dropped and none is recorded twice; and the run is a total function of its
inputs, so it completes without crashing on any per-VM failure. -/
theorem every_vm_gets_exactly_one_outcome (o : Oracle) (chg_number ts : String)
    (vm_list : List String)
    (hwf : ∀ line ∈ vm_list, wellFormedLine line = true) :
    ((mainRun o chg_number ts vm_list).successful_snapshots.map Prod.fst ++
      (mainRun o chg_number ts vm_list).failed_snapshots.map Prod.fst).Perm
      (vm_list.map fun line => (parseLine line).2) :=
  outcomeNames_mainRun_perm o chg_number ts vm_list

/-- Witness for C1 at a concrete three-VM, two-subscription input on which
every command succeeds. -/
theorem every_vm_gets_exactly_one_outcome_witness :
    (∀ line ∈ sampleInput, wellFormedLine line = true) ∧
    ((mainRun allOkOracle "CHG1" "TS0" sampleInput).successful_snapshots.map Prod.fst ++
      (mainRun allOkOracle "CHG1" "TS0" sampleInput).failed_snapshots.map Prod.fst).Perm
      (sampleInput.map fun line => (parseLine line).2) :=
  ⟨by decide,
   every_vm_gets_exactly_one_outcome allOkOracle "CHG1" "TS0" sampleInput (by decide)⟩

/-- **C2.** For every run, at no instant are more than 10 (the Limiter
capacity) snapshot-creation commands in flight: along every prefix of the
trace the issued creates exceed the completed ones by at most 10; and the
semaphore discipline holds — the semaphore is acquired before each create
command is issued, never acquired twice at once, and released on every exit
path of the creation task (the scan ends with the semaphore free). -/
theorem creation_concurrency_bounded (o : Oracle) (chg_number ts : String)
    (vm_list : List String) :
    (∀ p, p <+: (mainRun o chg_number ts vm_list).events →
      p.countP isCreateIssue ≤ p.countP isCreateComplete + 10) ∧
    scanEvents semStep false (mainRun o chg_number ts vm_list).events = some false := by
  constructor
  · intro p hp
    have h := prefix_inflight_le_one (mainRun o chg_number ts vm_list).events p 0
      (createScan_mainRun o chg_number ts vm_list) hp
    omega
  · exact semScan_mainRun o chg_number ts vm_list

/-- Witness for C2 at a concrete run and a concrete trace prefix. -/
theorem creation_concurrency_bounded_witness :
    ((mainRun allOkOracle "CHG1" "TS0" sampleInput).events.take 6).countP isCreateIssue ≤
      ((mainRun allOkOracle "CHG1" "TS0" sampleInput).events.take 6).countP
        isCreateComplete + 10 :=
  (creation_concurrency_bounded allOkOracle "CHG1" "TS0" sampleInput).1 _
    ⟨_, List.take_append_drop 6 _⟩

/-- **C3.** For every run in which a subscription group's context-switch
command exits non-zero: every parsed input record of that group is recorded
as failed with the context-switch reason `"Failed to set subscription"`; no
detail-lookup and no create command is ever issued for a VM of such a group
(every `az vm show` and every `az snapshot create` in the trace belongs to a
group whose switch succeeded); and all other groups are still fully processed
(every input record still receives exactly one outcome). -/
theorem failed_context_switch_isolates_group (o : Oracle) (chg_number ts : String)
    (vm_list : List String) :
    (∀ rec ∈ vm_list.map parseLine, o.accountSet (subscriptionOf rec.1) ≠ 0 →
      (rec.2, "Failed to set subscription") ∈
        (mainRun o chg_number ts vm_list).failed_snapshots) ∧
    (∀ rid rc, Event.cmdVmShow rid rc ∈ (mainRun o chg_number ts vm_list).events →
      o.accountSet (subscriptionOf rid) = 0) ∧
    (∀ rid vm n, Event.createIssue rid vm n ∈ (mainRun o chg_number ts vm_list).events →
      o.accountSet (subscriptionOf rid) = 0) ∧
    ((mainRun o chg_number ts vm_list).successful_snapshots.map Prod.fst ++
      (mainRun o chg_number ts vm_list).failed_snapshots.map Prod.fst).Perm
      (vm_list.map fun line => (parseLine line).2) := by
  refine ⟨?_, ?_, ?_, outcomeNames_mainRun_perm o chg_number ts vm_list⟩
  · intro rec hrec hfail
    exact switch_failed_recorded o chg_number ts vm_list rec hrec hfail
  · intro rid rc h
    exact cmdVmShow_mem_mainRun o chg_number ts vm_list rid rc h
  · intro rid vm n h
    exact (createIssue_mem_mainRun o chg_number ts vm_list rid vm n h).1

/-- Witness for C3 at a run where subscription `S1`'s switch fails and `S2`'s
succeeds: `vm1` of `S1` is recorded failed with the context-switch reason,
while `S2`'s VM still has its detail lookup issued. -/
theorem failed_context_switch_isolates_group_witness :
    ("vm1", "Failed to set subscription") ∈
      (mainRun s1FailOracle "CHG1" "TS0" sampleInput).failed_snapshots ∧
    s1FailOracle.accountSet (subscriptionOf "/subscriptions/S2/y") = 0 :=
  ⟨(failed_context_switch_isolates_group s1FailOracle "CHG1" "TS0" sampleInput).1
      ("/subscriptions/S1/x", "vm1") (by decide) (by decide),
   (failed_context_switch_isolates_group s1FailOracle "CHG1" "TS0" sampleInput).2.1
      "/subscriptions/S2/y" 0 (by decide)⟩

/-- **C4.** For every run: the durable list file is exactly the sequence of
the run's append events (so during the create phase it is only ever appended
to, never rewritten — and each per-group step extends it as a prefix); every
append is immediately followed by the recording of the corresponding Success
outcome (append at the moment of success, before the Success is recorded,
hence before the run reports completion); and each success appends exactly
once — the file has exactly one line per recorded success. -/
theorem durable_append_at_moment_of_success (o : Oracle) (chg_number ts : String)
    (vm_list : List String) :
    (mainRun o chg_number ts vm_list).snap_rid_list =
      (mainRun o chg_number ts vm_list).events.filterMap getAppendEvent ∧
    scanEvents pairStep none (mainRun o chg_number ts vm_list).events = some none ∧
    (mainRun o chg_number ts vm_list).snap_rid_list.length =
      (mainRun o chg_number ts vm_list).successful_snapshots.length ∧
    ∀ (s : RunState) (g : String × List (String × String)),
      s.snap_rid_list <+: (processGroup o chg_number ts s g).snap_rid_list :=
  ⟨snap_rid_list_eq_appends o chg_number ts vm_list,
   pairScan_mainRun o chg_number ts vm_list,
   snap_rid_list_length o chg_number ts vm_list,
   fun s g => snap_rid_list_monotone o chg_number ts s g⟩

/-- **C5** counterexample: at a three-record input whose two `S1` records are
separated by an `S2` record, the concatenation of the groups' records is
`[x-record, z-record, y-record]` — a reordering — so it does not equal the
parsed input list, refuting the claim's equality. -/
theorem grouping_concat_not_equal_input :
    (group_vms_by_subscription sampleInput).flatMap Prod.snd ≠
      sampleInput.map parseLine := by
  decide

/-- **C5** (amended).  For every input list of well-formed lines,
`group_vms_by_subscription` partitions the records: the concatenation of all
groups' records is a permutation of the parsed input (no record dropped or
deduplicated); each group's bucket is exactly the key-filtered parsed input in
input order; the subscription keys appear in first-seen order; and each
record's group key equals the 3rd slash-delimited segment (0-indexed
segment 2) of its resource identifier. -/
theorem grouping_partitions_input (vm_list : List String)
    (hwf : ∀ line ∈ vm_list, wellFormedLine line = true) :
    ((group_vms_by_subscription vm_list).flatMap Prod.snd).Perm
      (vm_list.map parseLine) ∧
    (∀ k, groupLookup (group_vms_by_subscription vm_list) k =
      (vm_list.map parseLine).filter (fun r => subscriptionOf r.1 = k)) ∧
    ((group_vms_by_subscription vm_list).map Prod.fst =
      firstSeen (vm_list.map fun line => subscriptionOf (parseLine line).1)) ∧
    (∀ k vms rec, (k, vms) ∈ group_vms_by_subscription vm_list → rec ∈ vms →
      (pySplitChar rec.1 '/').getD 2 "" = k) :=
  ⟨group_vms_flat_perm vm_list,
   fun k => groupLookup_group_vms vm_list k,
   keys_group_vms vm_list,
   fun k vms rec hg hr => key_of_mem_group vm_list k vms rec hg hr⟩

/-- Witness for the amended C5 at the concrete interleaved input. -/
theorem grouping_partitions_input_witness :
    (∀ line ∈ sampleInput, wellFormedLine line = true) ∧
    ((group_vms_by_subscription sampleInput).flatMap Prod.snd).Perm
      (sampleInput.map parseLine) :=
  ⟨by decide, (grouping_partitions_input sampleInput (by decide)).1⟩

/-- **C6.** For every VM reaching the creation step: a non-zero create exit
records exactly one failure with reason `"Failed to create snapshot"`; a zero
exit whose parsed output has an `id` appends that id to the durable file and
records exactly one success; a zero exit without an `id` records exactly one
failure with the distinct reason `"Failed to extract snapshot ID"`. -/
theorem creation_outcome_classification (o : Oracle) (chg_number ts rid vm rg dk : String)
    (s : RunState) :
    ((o.snapshotCreate (snapshotNameOf chg_number vm ts) rg dk).returncode ≠ 0 →
      (process_vm o chg_number ts rid vm rg dk s).failed_snapshots =
        s.failed_snapshots ++ [(vm, "Failed to create snapshot")] ∧
      (process_vm o chg_number ts rid vm rg dk s).successful_snapshots =
        s.successful_snapshots ∧
      (process_vm o chg_number ts rid vm rg dk s).snap_rid_list = s.snap_rid_list) ∧
    (∀ sid, (o.snapshotCreate (snapshotNameOf chg_number vm ts) rg dk).returncode = 0 →
      (o.snapshotCreate (snapshotNameOf chg_number vm ts) rg dk).id = some sid →
      (process_vm o chg_number ts rid vm rg dk s).snap_rid_list =
        s.snap_rid_list ++ [sid] ∧
      (process_vm o chg_number ts rid vm rg dk s).successful_snapshots =
        s.successful_snapshots ++ [(vm, snapshotNameOf chg_number vm ts)] ∧
      (process_vm o chg_number ts rid vm rg dk s).failed_snapshots =
        s.failed_snapshots) ∧
    ((o.snapshotCreate (snapshotNameOf chg_number vm ts) rg dk).returncode = 0 →
      (o.snapshotCreate (snapshotNameOf chg_number vm ts) rg dk).id = none →
      (process_vm o chg_number ts rid vm rg dk s).failed_snapshots =
        s.failed_snapshots ++ [(vm, "Failed to extract snapshot ID")] ∧
      (process_vm o chg_number ts rid vm rg dk s).successful_snapshots =
        s.successful_snapshots ∧
      (process_vm o chg_number ts rid vm rg dk s).snap_rid_list = s.snap_rid_list) ∧
    ("Failed to extract snapshot ID" : String) ≠ "Failed to create snapshot" := by
  refine ⟨?_, ?_, ?_, by decide⟩
  · intro h
    rw [process_vm_eq]
    refine ⟨?_, ?_, ?_⟩ <;>
      simp [vmBlock, h, appendBlock, List.filterMap_append, List.filterMap,
        getSuccessEvent, getFailureEvent, getAppendEvent]
  · intro sid h0 hid
    rw [process_vm_eq]
    refine ⟨?_, ?_, ?_⟩ <;>
      simp [vmBlock, h0, hid, appendBlock, List.filterMap_append, List.filterMap,
        getSuccessEvent, getFailureEvent, getAppendEvent]
  · intro h0 hid
    rw [process_vm_eq]
    refine ⟨?_, ?_, ?_⟩ <;>
      simp [vmBlock, h0, hid, appendBlock, List.filterMap_append, List.filterMap,
        getSuccessEvent, getFailureEvent, getAppendEvent]

/-- Witness for C6 covering all three branches at concrete oracles. -/
theorem creation_outcome_classification_witness :
    (process_vm createFailOracle "CHG1" "TS0" "/subscriptions/S1/x" "vm1" "rg1" "d1"
        initState).failed_snapshots = initState.failed_snapshots ++
        [("vm1", "Failed to create snapshot")] ∧
    (process_vm allOkOracle "CHG1" "TS0" "/subscriptions/S1/x" "vm1" "rg1" "d1"
        initState).snap_rid_list = initState.snap_rid_list ++
        ["/snapshots/" ++ snapshotNameOf "CHG1" "vm1" "TS0"] ∧
    (process_vm noIdOracle "CHG1" "TS0" "/subscriptions/S1/x" "vm1" "rg1" "d1"
        initState).failed_snapshots = initState.failed_snapshots ++
        [("vm1", "Failed to extract snapshot ID")] :=
  ⟨((creation_outcome_classification createFailOracle "CHG1" "TS0"
      "/subscriptions/S1/x" "vm1" "rg1" "d1" initState).1 (by decide)).1,
   (((creation_outcome_classification allOkOracle "CHG1" "TS0"
      "/subscriptions/S1/x" "vm1" "rg1" "d1" initState).2.1
      ("/snapshots/" ++ snapshotNameOf "CHG1" "vm1" "TS0") (by decide) (by decide))).1,
   (((creation_outcome_classification noIdOracle "CHG1" "TS0"
      "/subscriptions/S1/x" "vm1" "rg1" "d1" initState).2.2.1 (by decide) (by decide))).1⟩

/-- **C7** counterexample: when the command cannot be launched at all,
`run_az_command` does not raise — the exception is caught and the call returns
normally with `(None, exception message, 1)`, so there is no circumstance in
which `run_az_command` raises, contrary to the claim's launch-failure-raises
reading. -/
theorem run_az_command_launch_failure_returns :
    run_az_command (LaunchOutcome.failedToLaunch "spawn failure") =
      PyResult.ret (none, "spawn failure", 1) := rfl

/-- **C7** (amended).  For every command: if it launches and exits non-zero,
`run_az_command` returns normally with the captured (stripped) stderr and the
non-zero status; and it never raises at all — a failure to launch is caught
and returned as `(None, exception message, 1)` rather than raised. -/
theorem run_az_command_never_raises (out err msg : String) (rc : Int) :
    (rc ≠ 0 → run_az_command (LaunchOutcome.launched out err rc) =
      PyResult.ret (none, pyStrip err, rc)) ∧
    run_az_command (LaunchOutcome.failedToLaunch msg) =
      PyResult.ret (none, msg, 1) ∧
    ∀ lo : LaunchOutcome, ∃ v, run_az_command lo = PyResult.ret v := by
  refine ⟨?_, rfl, ?_⟩
  · intro h
    simp [run_az_command, h]
  · intro lo
    cases lo with
    | launched out' err' rc' =>
        by_cases h : rc' = 0 <;> simp [run_az_command, h]
    | failedToLaunch m => exact ⟨_, rfl⟩

/-- Witness for the amended C7 at a concrete failing command. -/
theorem run_az_command_never_raises_witness :
    run_az_command (LaunchOutcome.launched "out" " err \n" 2) =
      PyResult.ret (none, pyStrip " err \n", 2) :=
  (run_az_command_never_raises "out" " err \n" "m" 2).1 (by decide)

/-- **C8** counterexample: at a two-VM single-subscription input on which
every command succeeds (Limiter capacity 10), at no instant of the run's
trace are two creation commands in flight — the second VM's create command is
only issued after the first one completed — refuting the claim that creation
tasks within a group run concurrently. -/
theorem within_group_creates_never_overlap :
    ¬ ∃ n ∈ List.range ((mainRun allOkOracle "CHG1" "TS0" twoVmInput).events.length + 1),
        ((mainRun allOkOracle "CHG1" "TS0" twoVmInput).events.take n).countP
            isCreateComplete + 2 ≤
          ((mainRun allOkOracle "CHG1" "TS0" twoVmInput).events.take n).countP
            isCreateIssue := by
  decide

/-- **C8** (amended).  For every run, subscription groups are processed
strictly sequentially in first-seen order — the trace is the concatenation of
per-group blocks in grouping order, so all of a group's work finishes before
the next group's context switch — and within a group the VMs are processed
strictly sequentially as well: along every prefix of the trace at most one
creation command is in flight. -/
theorem groups_sequential_creates_serialized (o : Oracle) (chg_number ts : String)
    (vm_list : List String) :
    (mainRun o chg_number ts vm_list).events =
      (group_vms_by_subscription vm_list).flatMap (groupBlock o chg_number ts) ∧
    ((group_vms_by_subscription vm_list).map Prod.fst =
      firstSeen (vm_list.map fun line => subscriptionOf (parseLine line).1)) ∧
    ∀ p, p <+: (mainRun o chg_number ts vm_list).events →
      p.countP isCreateIssue ≤ p.countP isCreateComplete + 1 := by
  refine ⟨?_, keys_group_vms vm_list, ?_⟩
  · rw [mainRun_eq]
    simp [appendBlock, initState]
  · intro p hp
    exact prefix_inflight_le_one _ p 0 (createScan_mainRun o chg_number ts vm_list) hp

/-- Witness for the amended C8 at a concrete run and trace prefix. -/
theorem groups_sequential_creates_serialized_witness :
    ((mainRun allOkOracle "CHG2" "TS0" sampleInput).events.take 4).countP
        isCreateIssue ≤
      ((mainRun allOkOracle "CHG2" "TS0" sampleInput).events.take 4).countP
        isCreateComplete + 1 :=
  (groups_sequential_creates_serialized allOkOracle "CHG2" "TS0" sampleInput).2.2 _
    ⟨_, List.take_append_drop 4 _⟩

/-- **C9.** For every VM processed in a run with change number `chg_number`,
the snapshot name carried by its create command equals
`RH_<chg_number>_<vm_name>_<timestamp>` where the timestamp is the run-start
instant formatted as `YYYYMMDDHHMMSS` — the single module-level `TIMESTAMP`
value, identical for every VM of the run. -/
theorem snapshot_name_format (o : Oracle) (chg_number : String)
    (runStart : DateTime) (vm_list : List String) (rid vm n : String)
    (h : Event.createIssue rid vm n ∈
      (mainRun o chg_number (TIMESTAMP runStart) vm_list).events) :
    n = "RH_" ++ chg_number ++ "_" ++ vm ++ "_" ++ strftime_YmdHMS runStart :=
  (createIssue_mem_mainRun o chg_number (TIMESTAMP runStart) vm_list rid vm n h).2

/-- Witness for C9 at a concrete run start `2024-08-11 12:30:05`. -/
theorem snapshot_name_format_witness :
    ("RH_CHG1_vm1_20240811123005" : String) =
      "RH_" ++ "CHG1" ++ "_" ++ "vm1" ++ "_" ++
        strftime_YmdHMS ⟨2024, 8, 11, 12, 30, 5⟩ :=
  snapshot_name_format allOkOracle "CHG1" ⟨2024, 8, 11, 12, 30, 5⟩ twoVmInput
    "/subscriptions/S1/x" "vm1" "RH_CHG1_vm1_20240811123005" (by decide)

/-- **C10.** For every value of the `host_file` argument, `extract_vm_info`
reads the fixed file `snapshot_vmlist.txt`: its result does not depend on
`host_file`; it returns `None` exactly when that fixed file is missing or
empty; and when it returns `None` the run ends without processing any VM. -/
theorem extract_vm_info_reads_fixed_file (fs : String → Option String)
    (host_file other_host_file chg_number ts : String) (o : Oracle) :
    extract_vm_info fs host_file = extract_vm_info fs other_host_file ∧
    (extract_vm_info fs host_file = none ↔
      fs "snapshot_vmlist.txt" = none ∨ fs "snapshot_vmlist.txt" = some "") ∧
    (extract_vm_info fs host_file = none →
      mainEntry fs o host_file chg_number ts = none) := by
  refine ⟨rfl, ?_, ?_⟩
  · cases hfs : fs "snapshot_vmlist.txt" with
    | none => simp [extract_vm_info, hfs]
    | some content =>
        simp only [extract_vm_info, hfs]
        by_cases h : splitlines content = []
        · have hc : content = "" := (splitlines_eq_nil_iff content).mp h
          subst hc
          simp [h]
        · have hne : content ≠ "" := fun hc => h (by rw [hc]; rfl)
          simp [h, hne]
  · intro hnone
    simp [mainEntry, hnone]

/-- Witness for C10 on a file system with no `snapshot_vmlist.txt`. -/
theorem extract_vm_info_reads_fixed_file_witness :
    mainEntry (fun _ => none) allOkOracle "host" "CHG1" "TS0" = none :=
  (extract_vm_info_reads_fixed_file (fun _ => none) "host" "other" "CHG1" "TS0"
    allOkOracle).2.2 rfl

end SnapScripts

/-! Sanity checks of the Python string semantics (kept as anonymous examples). -/

example : SnapScripts.pySplitChar "a//b" '/' = ["a", "", "b"] := by decide

example : SnapScripts.pySplitChar "" '/' = [""] := by decide

example : SnapScripts.pySplitChar "/subscriptions/S1/x" '/' =
    ["", "subscriptions", "S1", "x"] := by decide

example : SnapScripts.rsplit1 "/subscriptions/S1/x  vm1 " =
    ("/subscriptions/S1/x", "vm1") := by decide

example : SnapScripts.splitlines "a\nb\n" = ["a", "b"] := by decide

example : SnapScripts.splitlines "" = [] := by decide

example : SnapScripts.splitlines "\n" = [""] := by decide

example : SnapScripts.pyStrip "  hi \n" = "hi" := by decide
